import Mathlib

/-!
Verification of the explorations listing generator
(src/scripts/explorations-generator.js): a filter / order / paginate
pipeline that turns the full content collection into paginated listing
pages for the Explorations subsection.

The generator script itself is embedded directly from the source.  Two
collaborators it calls are external dependencies whose code is not part
of the repository (the warehouse collection sort invoked as
sortedPosts.sort(orderBy), and the hexo-pagination routine); those are
modelled from the specification, as marked in their doc comments.
-/

/-- A category attached to a content item.  In the source, categories are
duck-typed objects identified by their name field; comparison against the
target is exact, case-sensitive string equality (cat.name === "Explorations"). -/
structure Category where
  name : String
deriving DecidableEq, Repr

/-- One publishable content item.  The fields the pipeline reads: an
optional list of categories (absent or null in JS is None), a date used as
the default ordering key, an optional numeric sticky priority, and a hidden
flag.  The id field stands for the arbitrary other fields that are opaque
to the pipeline and lets two items agree on every key the pipeline reads
while remaining distinct. -/
structure ContentItem where
  id : Nat
  date : Int
  sticky : Option Int
  hidden : Bool
  categories : Option (List Category)
deriving DecidableEq, Repr

/-- The sticky priority actually used by the comparator in the source:
(b.sticky || 0), i.e. a missing sticky counts as 0. -/
def stickyVal (p : ContentItem) : Int :=
  p.sticky.getD 0

/-- The filter predicate of the source (lines 17-18):
if (!post.categories || !post.categories.length) return false;
return post.categories.some(cat => cat.name === "Explorations"). -/
def matchesExplorations (post : ContentItem) : Bool :=
  match post.categories with
  | none => false
  | some cats =>
    if cats.length = 0 then false
    else cats.any (fun cat => cat.name == "Explorations")

/-- The Selector of the source (line 16):
locals.all_posts.filter(post => ...). -/
def explorationsPosts (all_posts : List ContentItem) : List ContentItem :=
  all_posts.filter matchesExplorations

/-- The predicate in the words of the specification: the item has at least
one Category whose name exactly equals the target.  Stated separately from
matchesExplorations (which carries the length guard of the source) so that
the Selector can be compared against the specification. -/
def hasExplorationsCategory (post : ContentItem) : Bool :=
  (post.categories.getD []).any (fun cat => cat.name == "Explorations")

/-- Comparator for descending date order: item a may come before item b
when the date of b is at most the date of a. -/
def dateDescLe (a b : ContentItem) : Bool :=
  decide (b.date ≤ a.date)

/-- Comparator for ascending date order. -/
def dateAscLe (a b : ContentItem) : Bool :=
  decide (a.date ≤ b.date)

/-- Modelled from the spec: the primary ordering pass.  The source invokes
the external warehouse collection sort as explorationsPosts.sort(orderBy),
whose code is not in the repository.  Per the specification it is a stable
sort by the named field, with a leading "-" meaning descending, defaulting
to "-date" (most recent first).  Only the date field is modelled, since the
repository only ever sorts this collection by date; the stable sort is
realised as List.mergeSort. -/
def querySort (orderBy : String) (posts : List ContentItem) : List ContentItem :=
  if orderBy = "date" then posts.mergeSort dateAscLe
  else posts.mergeSort dateDescLe

/-- Comparator of the secondary pass in the source (line 30):
(a, b) => (b.sticky || 0) - (a.sticky || 0), i.e. descending by sticky.
The comparator reports a-before-b exactly when its value is nonpositive. -/
def stickyDescLe (a b : ContentItem) : Bool :=
  decide (stickyVal b ≤ stickyVal a)

/-- The secondary ordering pass of the source (line 30):
sortedPosts.data.sort((a, b) => (b.sticky || 0) - (a.sticky || 0)).
JavaScript Array.prototype.sort is stable, embedded as List.mergeSort. -/
def stickySortPass (posts : List ContentItem) : List ContentItem :=
  posts.mergeSort stickyDescLe

/-- One produced page descriptor: its slice of items, its 1-based index,
the shared page total, its address, the ordered template fallback list, and
the fixed extra data attached to every page. -/
structure Page where
  items : List ContentItem
  index : Nat
  totalPages : Nat
  path : String
  layoutCandidates : List String
  extraData : List (String × String)
deriving DecidableEq, Repr

/-- Modelled from the spec: the address of a page.  The first page keeps
the base address unmodified; every later page at 1-based index i lives at
base followed by the page directory segment, a slash, i, and a slash
(the source passes format: paginationDir + "/%d/"). -/
def pagePath (pathBase pageDirSegment : String) (i : Nat) : String :=
  if i ≤ 1 then pathBase
  else pathBase ++ pageDirSegment ++ "/" ++ toString i ++ "/"

/-- Modelled from the spec: the chunking walk of the external
hexo-pagination routine.  It walks the ordered sequence, grouping
consecutive items into chunks of at most perPage (the final chunk may be
smaller), building one page per chunk with consecutive 1-based indices
starting at i.  The routine is specified only for a positive perPage. -/
def paginate (pathBase pageDirSegment : String) (layout : List String)
    (extra : List (String × String)) (totalPages perPage : Nat) :
    Nat → List ContentItem → List Page
  | _, [] => []
  | i, a :: l =>
    { items := a :: l.take (perPage - 1),
      index := i,
      totalPages := totalPages,
      path := pagePath pathBase pageDirSegment i,
      layoutCandidates := layout,
      extraData := extra }
      :: paginate pathBase pageDirSegment layout extra totalPages perPage
          (i + 1) (l.drop (perPage - 1))
termination_by _ l => l.length
decreasing_by simp; omega

/-- Modelled from the spec: the external hexo-pagination routine.  It
computes the shared page total as the ceiling of the sequence length
divided by perPage, and emits one page per chunk, the first page at the
unmodified base address. -/
def pagination (pathBase : String) (posts : List ContentItem) (perPage : Nat)
    (pageDirSegment : String) (layout : List String)
    (extra : List (String × String)) : List Page :=
  paginate pathBase pageDirSegment layout extra
    ((posts.length + perPage - 1) / perPage) perPage 1 posts

/-- JavaScript defaulting v || d on a numeric option: an absent value and
the falsy 0 both fall back to the default. -/
def jsOrNat (v : Option Nat) (d : Nat) : Nat :=
  match v with
  | none => d
  | some n => if n = 0 then d else n

/-- JavaScript defaulting v || d on a string option: an absent value and
the falsy empty string both fall back to the default. -/
def jsOrStr (v : Option String) (d : String) : String :=
  match v with
  | none => d
  | some s => if s = "" then d else s

/-- The slice of the site configuration the generator reads under
config.index_generator. -/
structure IndexGeneratorConfig where
  per_page : Option Nat
  order_by : Option String
deriving DecidableEq, Repr

/-- The slice of the site configuration the generator reads. -/
structure SiteConfig where
  index_generator : IndexGeneratorConfig
  pagination_dir : Option String
deriving DecidableEq, Repr

/-- The generator registered in the source, embedded line by line: return
[] when locals.all_posts is absent; filter by the Explorations category;
return [] when no item matches; sort by orderBy (default "-date"); stable
secondary sort by descending sticky; paginate under "explorations/" with
perPage = config.index_generator.per_page || 10, format
(config.pagination_dir || "page") + "/%d/", layout
["explorations", "index"], and the fixed extra data. -/
def explorationsGenerator (config : SiteConfig)
    (all_posts : Option (List ContentItem)) : List Page :=
  match all_posts with
  | none => []
  | some posts =>
    let filtered := explorationsPosts posts
    if filtered.length = 0 then []
    else
      let orderBy := jsOrStr config.index_generator.order_by "-date"
      let sortedPosts := querySort orderBy filtered
      let resorted := stickySortPass sortedPosts
      let paginationDir := jsOrStr config.pagination_dir "page"
      pagination "explorations/" resorted
        (jsOrNat config.index_generator.per_page 10) paginationDir
        ["explorations", "index"]
        [("__explorations", "true"), ("subtitle", "Curiosity-driven dives")]

/-- Erase the hidden flag of an item; two input collections are identical
except for hidden flags exactly when their eraseHidden images agree. -/
def eraseHidden (p : ContentItem) : ContentItem :=
  { p with hidden := false }

/-- Erase the hidden flags inside a produced page. -/
def pageEraseHidden (pg : Page) : Page :=
  { pg with items := pg.items.map eraseHidden }

/-! ## Concrete inputs for witnesses and counterexamples -/

/-- A concrete Explorations category. -/
def demoCategory : Category := { name := "Explorations" }

/-- A concrete content item carrying the Explorations category. -/
def demoPost (i : Nat) (d : Int) (s : Option Int) : ContentItem :=
  { id := i, date := d, sticky := s, hidden := false,
    categories := some [demoCategory] }

/-- A concrete content item carrying only a different category. -/
def demoOther : ContentItem :=
  { id := 99, date := 0, sticky := none, hidden := false,
    categories := some [{ name := "Compilers" }] }

/-- A concrete content item with an absent category field. -/
def demoNoCategories : ContentItem :=
  { id := 98, date := 0, sticky := none, hidden := false,
    categories := none }

/-- A site configuration with every option left to its default. -/
def demoConfig : SiteConfig :=
  { index_generator := { per_page := none, order_by := none },
    pagination_dir := none }

/-- A site configuration with per_page set to 0. -/
def zeroPerPageConfig : SiteConfig :=
  { index_generator := { per_page := some 0, order_by := none },
    pagination_dir := none }

/-- A site configuration with per_page set to 10. -/
def tenPerPageConfig : SiteConfig :=
  { index_generator := { per_page := some 10, order_by := none },
    pagination_dir := none }

/-- A matching item marked hidden. -/
def hiddenItem : ContentItem :=
  { id := 1, date := 0, sticky := none, hidden := true,
    categories := some [demoCategory] }

/-- The same item as hiddenItem with the hidden flag cleared. -/
def shownItem : ContentItem :=
  { id := 1, date := 0, sticky := none, hidden := false,
    categories := some [demoCategory] }

/-- The second page produced when two matching items are paginated one
item per page. -/
def demoSecondPage : Page :=
  { items := [demoPost 2 1 none], index := 2, totalPages := 2,
    path := pagePath "explorations/" "page" 2,
    layoutCandidates := [], extraData := [] }

/-! ## Helper lemmas -/

/-- Concatenating the item slices of the pages produced by the chunking
walk restores the input sequence, whatever the starting index. -/
theorem paginate_items_flatten (pathBase pageDirSegment : String)
    (layout : List String) (extra : List (String × String))
    (totalPages perPage : Nat) :
    ∀ (i : Nat) (l : List ContentItem),
      ((paginate pathBase pageDirSegment layout extra totalPages perPage
          i l).map Page.items).flatten = l
  | _, [] => by simp [paginate]
  | i, a :: l => by
    rw [paginate]
    simp only [List.map_cons, List.flatten_cons]
    rw [paginate_items_flatten pathBase pageDirSegment layout extra totalPages
      perPage (i + 1) (l.drop (perPage - 1))]
    simp
termination_by _ l => l.length
decreasing_by simp; omega

/-- Concatenating the item slices of the produced pages restores the
input sequence. -/
theorem pagination_items_flatten (pathBase : String)
    (posts : List ContentItem) (perPage : Nat) (pageDirSegment : String)
    (layout : List String) (extra : List (String × String)) :
    ((pagination pathBase posts perPage pageDirSegment layout
        extra).map Page.items).flatten = posts := by
  rw [pagination]
  exact paginate_items_flatten _ _ _ _ _ _ _ _

/-- The filter predicate of the source agrees pointwise with the predicate
in the words of the specification. -/
theorem matchesExplorations_eq_hasExplorationsCategory (p : ContentItem) :
    matchesExplorations p = hasExplorationsCategory p := by
  rcases p with ⟨i, d, s, h, categories⟩
  cases categories with
  | none => rfl
  | some cats =>
    cases cats with
    | nil => rfl
    | cons c l => simp [matchesExplorations, hasExplorationsCategory]

/-- The sticky comparator is transitive. -/
theorem stickyDescLe_trans (a b c : ContentItem) :
    stickyDescLe a b → stickyDescLe b c → stickyDescLe a c := by
  simp only [stickyDescLe, decide_eq_true_eq]
  omega

/-- The sticky comparator is total. -/
theorem stickyDescLe_total (a b : ContentItem) :
    stickyDescLe a b || stickyDescLe b a := by
  simp only [stickyDescLe]
  rcases Int.le_total (stickyVal b) (stickyVal a) with h | h <;> simp [h]

/-- The descending date comparator is transitive. -/
theorem dateDescLe_trans (a b c : ContentItem) :
    dateDescLe a b → dateDescLe b c → dateDescLe a c := by
  simp only [dateDescLe, decide_eq_true_eq]
  omega

/-- The descending date comparator is total. -/
theorem dateDescLe_total (a b : ContentItem) :
    dateDescLe a b || dateDescLe b a := by
  simp only [dateDescLe]
  rcases Int.le_total b.date a.date with h | h <;> simp [h]

/-- The ascending date comparator is transitive. -/
theorem dateAscLe_trans (a b c : ContentItem) :
    dateAscLe a b → dateAscLe b c → dateAscLe a c := by
  simp only [dateAscLe, decide_eq_true_eq]
  omega

/-- The ascending date comparator is total. -/
theorem dateAscLe_total (a b : ContentItem) :
    dateAscLe a b || dateAscLe b a := by
  simp only [dateAscLe]
  rcases Int.le_total a.date b.date with h | h <;> simp [h]

/-- The secondary pass leaves the sequence pairwise nonincreasing in
sticky priority. -/
theorem stickySortPass_pairwise (l : List ContentItem) :
    (stickySortPass l).Pairwise fun a b => stickyVal b ≤ stickyVal a := by
  have h := List.sorted_mergeSort stickyDescLe_trans stickyDescLe_total l
  exact h.imp fun hab => by simpa [stickyDescLe] using hab

/-- Stability of the primary pass on a pair with equal dates. -/
theorem querySort_pair_sublist (orderBy : String) {a b : ContentItem}
    {l : List ContentItem} (hdate : a.date = b.date)
    (h : [a, b].Sublist l) : [a, b].Sublist (querySort orderBy l) := by
  rw [querySort]
  split
  · exact List.pair_sublist_mergeSort dateAscLe_trans dateAscLe_total
      (by simp [dateAscLe, hdate]) h
  · exact List.pair_sublist_mergeSort dateDescLe_trans dateDescLe_total
      (by simp [dateDescLe, hdate]) h

/-- Stability of the secondary pass on a pair with equal sticky values. -/
theorem stickySortPass_pair_sublist {a b : ContentItem}
    {l : List ContentItem} (hsticky : stickyVal a = stickyVal b)
    (h : [a, b].Sublist l) : [a, b].Sublist (stickySortPass l) :=
  List.pair_sublist_mergeSort stickyDescLe_trans stickyDescLe_total
    (by simp [stickyDescLe, hsticky]) h

/-- Concatenating the item slices of the generator output gives exactly
the filtered, ordered sequence. -/
theorem explorationsGenerator_flatten (config : SiteConfig)
    (posts : List ContentItem) :
    ((explorationsGenerator config (some posts)).map Page.items).flatten =
      stickySortPass (querySort (jsOrStr config.index_generator.order_by
        "-date") (explorationsPosts posts)) := by
  by_cases h : (explorationsPosts posts).length = 0
  · rw [List.length_eq_zero] at h
    simp [explorationsGenerator, h, List.length_eq_zero, stickySortPass,
      querySort]
  · simp only [explorationsGenerator, if_neg h]
    exact pagination_items_flatten _ _ _ _ _ _

/-- Every page emitted by the chunking walk carries the page total it was
given: the list of page totals is constant. -/
theorem paginate_map_totalPages (pathBase pageDirSegment : String)
    (layout : List String) (extra : List (String × String))
    (totalPages perPage : Nat) :
    ∀ (i : Nat) (l : List ContentItem),
      (paginate pathBase pageDirSegment layout extra totalPages perPage
          i l).map Page.totalPages =
        List.replicate (paginate pathBase pageDirSegment layout extra
          totalPages perPage i l).length totalPages
  | _, [] => by simp [paginate]
  | i, a :: l => by
    rw [paginate]
    simp only [List.map_cons, List.length_cons, List.replicate_succ]
    rw [paginate_map_totalPages pathBase pageDirSegment layout extra
      totalPages perPage (i + 1) (l.drop (perPage - 1))]
termination_by _ l => l.length
decreasing_by simp; omega

/-- For a positive perPage, the chunking walk emits exactly the ceiling
of the sequence length divided by perPage many pages. -/
theorem paginate_length (pathBase pageDirSegment : String)
    (layout : List String) (extra : List (String × String))
    (totalPages perPage : Nat) :
    ∀ (i : Nat) (l : List ContentItem), 0 < perPage →
      (paginate pathBase pageDirSegment layout extra totalPages perPage
          i l).length = (l.length + perPage - 1) / perPage
  | _, [], hp => by
    simp only [paginate, List.length_nil, Nat.zero_add]
    exact (Nat.div_eq_of_lt (by omega)).symm
  | i, a :: l, hp => by
    rw [paginate]
    simp only [List.length_cons]
    rw [paginate_length pathBase pageDirSegment layout extra totalPages
      perPage (i + 1) (l.drop (perPage - 1)) hp, List.length_drop]
    have e : l.length + 1 + perPage - 1 = l.length + perPage := by omega
    rw [e, Nat.add_div_right _ hp]
    rcases Nat.lt_or_ge l.length (perPage - 1) with h | h
    · have e2 : l.length - (perPage - 1) + perPage - 1 = perPage - 1 := by
        omega
      rw [e2, Nat.div_eq_of_lt (by omega), Nat.div_eq_of_lt (by omega)]
    · have e2 : l.length - (perPage - 1) + perPage - 1 = l.length := by
        omega
      rw [e2]
termination_by _ l => l.length
decreasing_by simp; omega

/-- Every page emitted by the chunking walk is addressed through pagePath
at its own index, and indices never drop below the starting index. -/
theorem paginate_mem_path (pathBase pageDirSegment : String)
    (layout : List String) (extra : List (String × String))
    (totalPages perPage : Nat) :
    ∀ (i : Nat) (l : List ContentItem) (pg : Page),
      pg ∈ paginate pathBase pageDirSegment layout extra totalPages
        perPage i l →
      pg.path = pagePath pathBase pageDirSegment pg.index ∧ i ≤ pg.index
  | i, [], pg => by simp [paginate]
  | i, a :: l, pg => by
    rw [paginate]
    intro h
    rcases List.mem_cons.mp h with h | h
    · subst h
      exact ⟨rfl, Nat.le_refl i⟩
    · have ih := paginate_mem_path pathBase pageDirSegment layout extra
        totalPages perPage (i + 1) (l.drop (perPage - 1)) pg h
      exact ⟨ih.1, Nat.le_of_succ_le ih.2⟩
termination_by _ l => l.length
decreasing_by simp; omega

/-- The filter predicate never looks at the hidden flag. -/
theorem matchesExplorations_eraseHidden (p : ContentItem) :
    matchesExplorations (eraseHidden p) = matchesExplorations p := rfl

/-- The Selector commutes with erasing hidden flags. -/
theorem explorationsPosts_map_eraseHidden (ps : List ContentItem) :
    explorationsPosts (ps.map eraseHidden) =
      (explorationsPosts ps).map eraseHidden := by
  rw [explorationsPosts, explorationsPosts, List.filter_map]
  exact congrArg (List.map eraseHidden) (List.filter_congr fun x _ => rfl)

/-- The primary ordering pass commutes with erasing hidden flags. -/
theorem querySort_map_eraseHidden (orderBy : String)
    (l : List ContentItem) :
    querySort orderBy (l.map eraseHidden) =
      (querySort orderBy l).map eraseHidden := by
  by_cases h : orderBy = "date"
  · rw [querySort, querySort, if_pos h, if_pos h]
    exact (List.map_mergeSort (show ∀ a ∈ l, ∀ b ∈ l,
      dateAscLe a b = dateAscLe (eraseHidden a) (eraseHidden b) from
      fun a _ b _ => rfl)).symm
  · rw [querySort, querySort, if_neg h, if_neg h]
    exact (List.map_mergeSort (show ∀ a ∈ l, ∀ b ∈ l,
      dateDescLe a b = dateDescLe (eraseHidden a) (eraseHidden b) from
      fun a _ b _ => rfl)).symm

/-- The secondary ordering pass commutes with erasing hidden flags. -/
theorem stickySortPass_map_eraseHidden (l : List ContentItem) :
    stickySortPass (l.map eraseHidden) =
      (stickySortPass l).map eraseHidden := by
  rw [stickySortPass, stickySortPass]
  exact (List.map_mergeSort (show ∀ a ∈ l, ∀ b ∈ l,
    stickyDescLe a b = stickyDescLe (eraseHidden a) (eraseHidden b) from
    fun a _ b _ => rfl)).symm

/-- The chunking walk commutes with erasing hidden flags. -/
theorem paginate_map_eraseHidden (pathBase pageDirSegment : String)
    (layout : List String) (extra : List (String × String))
    (totalPages perPage : Nat) :
    ∀ (i : Nat) (l : List ContentItem),
      paginate pathBase pageDirSegment layout extra totalPages perPage
          i (l.map eraseHidden) =
        (paginate pathBase pageDirSegment layout extra totalPages perPage
          i l).map pageEraseHidden
  | i, [] => by simp [paginate]
  | i, a :: l => by
    rw [List.map_cons, paginate, paginate, List.map_cons]
    rw [← List.map_take, ← List.map_drop]
    rw [paginate_map_eraseHidden pathBase pageDirSegment layout extra
      totalPages perPage (i + 1) (l.drop (perPage - 1))]
    simp [pageEraseHidden]
termination_by _ l => l.length
decreasing_by simp; omega

/-- The pagination routine commutes with erasing hidden flags. -/
theorem pagination_map_eraseHidden (pathBase : String)
    (posts : List ContentItem) (perPage : Nat) (pageDirSegment : String)
    (layout : List String) (extra : List (String × String)) :
    pagination pathBase (posts.map eraseHidden) perPage pageDirSegment
        layout extra =
      (pagination pathBase posts perPage pageDirSegment layout
        extra).map pageEraseHidden := by
  rw [pagination, pagination, List.length_map]
  exact paginate_map_eraseHidden _ _ _ _ _ _ 1 posts

/-- The whole generator commutes with erasing hidden flags. -/
theorem explorationsGenerator_map_eraseHidden (config : SiteConfig)
    (ps : List ContentItem) :
    explorationsGenerator config (some (ps.map eraseHidden)) =
      (explorationsGenerator config (some ps)).map pageEraseHidden := by
  simp only [explorationsGenerator, explorationsPosts_map_eraseHidden,
    List.length_map]
  by_cases h : (explorationsPosts ps).length = 0
  · simp [h]
  · simp only [if_neg h]
    rw [querySort_map_eraseHidden, stickySortPass_map_eraseHidden,
      pagination_map_eraseHidden]

/-! ## Claims -/

/-- C1: for every input collection and every positive perPage,
concatenating the item sequences of the produced pages in ascending index
order yields exactly the input sequence of the pagination routine, which
the generator instantiates with the filtered-and-ordered sequence: every
filtered item appears exactly once, none is duplicated or omitted, and
relative order is preserved across page boundaries. -/
theorem pagination_concat_exact (config : SiteConfig)
    (rawPosts posts : List ContentItem) (perPage : Nat)
    (pathBase pageDirSegment : String) (layout : List String)
    (extra : List (String × String)) (_hpp : 0 < perPage) :
    ((pagination pathBase posts perPage pageDirSegment layout
        extra).map Page.items).flatten = posts ∧
    ((explorationsGenerator config (some rawPosts)).map
        Page.items).flatten =
      stickySortPass (querySort (jsOrStr config.index_generator.order_by
        "-date") (explorationsPosts rawPosts)) :=
  ⟨pagination_items_flatten _ _ _ _ _ _,
   explorationsGenerator_flatten _ _⟩

/-- Witness for C1 at a concrete one-item collection and perPage 10. -/
theorem pagination_concat_exact_witness :
    ((pagination "explorations/" [demoPost 1 5 none] 10 "page"
        ["explorations", "index"] []).map Page.items).flatten =
      [demoPost 1 5 none] :=
  (pagination_concat_exact demoConfig [demoPost 1 5 none]
    [demoPost 1 5 none] 10 "explorations/" "page"
    ["explorations", "index"] [] (by decide)).1

/-- C2: the output of the Selector is exactly the sub-sequence of items
having at least one category whose name is string-equal (exact,
case-sensitive) to Explorations, in the same relative order as the input:
it equals the input filtered by the specification predicate, and it is a
sublist of the input. -/
theorem selector_exact_subsequence (all_posts : List ContentItem) :
    explorationsPosts all_posts =
      all_posts.filter hasExplorationsCategory ∧
    (explorationsPosts all_posts).Sublist all_posts :=
  ⟨List.filter_congr fun x _ =>
      matchesExplorations_eq_hasExplorationsCategory x,
   List.filter_sublist all_posts⟩

/-- C3: in the final order (pages concatenated in index order), sticky
priorities are pairwise nonincreasing, so for every pair of items where
one has a strictly greater sticky priority (missing counting as 0) the
higher-sticky item appears earlier, regardless of the primary-sort keys. -/
theorem sticky_priority_precedes_final (config : SiteConfig)
    (posts : List ContentItem) :
    (((explorationsGenerator config (some posts)).map
        Page.items).flatten).Pairwise
      fun a b => stickyVal b ≤ stickyVal a := by
  rw [explorationsGenerator_flatten]
  exact stickySortPass_pairwise _

/-- C4 (amended): a configured per_page of 0 is not surfaced as a failure:
the JavaScript defaulting per_page || 10 silently coerces it to the
default 10, and the generator behaves exactly as if per_page were 10. -/
theorem perPage_zero_coerced_to_default (config : SiteConfig)
    (posts : List ContentItem) :
    jsOrNat (some 0) 10 = 10 ∧
    explorationsGenerator { config with index_generator :=
        { config.index_generator with per_page := some 0 } } (some posts) =
      explorationsGenerator { config with index_generator :=
        { config.index_generator with per_page := some 10 } }
        (some posts) := by
  refine ⟨rfl, ?_⟩
  simp [explorationsGenerator, jsOrNat]

/-- C4 counterexample: with per_page configured as 0 (not a positive
integer) and one matching item, the pipeline does not abort: it produces
the same nonempty page sequence as the default per_page of 10, so the
value is silently coerced rather than surfaced as a failure. -/
theorem perPage_zero_no_failure_cex :
    explorationsGenerator zeroPerPageConfig (some [demoPost 1 5 none]) =
      explorationsGenerator tenPerPageConfig (some [demoPost 1 5 none]) ∧
    explorationsGenerator zeroPerPageConfig
      (some [demoPost 1 5 none]) ≠ [] := by
  constructor
  · simp [explorationsGenerator, jsOrNat, zeroPerPageConfig,
      tenPerPageConfig]
  · rw [show explorationsGenerator zeroPerPageConfig
        (some [demoPost 1 5 none]) =
      pagination "explorations/" (stickySortPass (querySort "-date"
        (explorationsPosts [demoPost 1 5 none]))) 10 "page"
        ["explorations", "index"]
        [("__explorations", "true"), ("subtitle", "Curiosity-driven dives")]
      from by simp [explorationsGenerator, jsOrNat, jsOrStr,
        zeroPerPageConfig, show explorationsPosts [demoPost 1 5 none] =
          [demoPost 1 5 none] from by decide]]
    rw [show explorationsPosts [demoPost 1 5 none] =
      [demoPost 1 5 none] from by decide]
    simp [querySort, stickySortPass, List.mergeSort, pagination, paginate]

/-- C5: if the input collection is absent, or no item matches the target
category, the generator returns an empty page sequence as a normal
outcome (it is a total function, so no failure is raised). -/
theorem empty_inputs_yield_no_pages (config : SiteConfig)
    (posts : List ContentItem) :
    explorationsGenerator config none = [] ∧
    (explorationsPosts posts = [] →
      explorationsGenerator config (some posts) = []) := by
  constructor
  · rfl
  · intro h
    simp [explorationsGenerator, h]

/-- Witness for C5: the absent collection, and a collection whose only
item carries a different category. -/
theorem empty_inputs_yield_no_pages_witness :
    explorationsGenerator demoConfig none = [] ∧
    explorationsGenerator demoConfig (some [demoOther]) = [] :=
  ⟨(empty_inputs_yield_no_pages demoConfig [demoOther]).1,
   (empty_inputs_yield_no_pages demoConfig [demoOther]).2 (by decide)⟩

/-- C6: for every positive perPage, every produced page carries the same
totalPages value, equal to the ceiling of the sequence length divided by
perPage (computed as (n + perPage - 1) / perPage); the number of produced
pages also equals that ceiling, so when the sequence is empty no page
objects are produced at all. -/
theorem totalPages_ceiling_shared (posts : List ContentItem)
    (perPage : Nat) (pathBase pageDirSegment : String)
    (layout : List String) (extra : List (String × String))
    (hpp : 0 < perPage) :
    (pagination pathBase posts perPage pageDirSegment layout
        extra).map Page.totalPages =
      List.replicate (pagination pathBase posts perPage pageDirSegment
        layout extra).length
        ((posts.length + perPage - 1) / perPage) ∧
    (pagination pathBase posts perPage pageDirSegment layout
        extra).length = (posts.length + perPage - 1) / perPage ∧
    (posts.length = 0 →
      pagination pathBase posts perPage pageDirSegment layout
        extra = []) := by
  refine ⟨?_, ?_, ?_⟩
  · rw [pagination]
    exact paginate_map_totalPages _ _ _ _ _ _ _ _
  · rw [pagination]
    exact paginate_length _ _ _ _ _ _ _ _ hpp
  · intro h
    rw [List.length_eq_zero] at h
    subst h
    simp [pagination, paginate]

/-- Witness for C6 at one matching item and perPage 3. -/
theorem totalPages_ceiling_shared_witness :
    (pagination "explorations/" [demoPost 1 5 none] 3 "page" []
        []).map Page.totalPages =
      List.replicate (pagination "explorations/" [demoPost 1 5 none] 3
        "page" [] []).length
        (([demoPost 1 5 none].length + 3 - 1) / 3) :=
  (totalPages_ceiling_shared [demoPost 1 5 none] 3 "explorations/"
    "page" [] [] (by decide)).1

/-- C7: in every paginated result, a page with index 1 is addressed at
the unmodified pathBase, a page with index at least 2 is addressed at
pathBase joined with the page directory segment and its index between
slashes, and for a nonempty input the first produced page has index 1
and address pathBase. -/
theorem page_addressing (posts : List ContentItem) (perPage : Nat)
    (pathBase pageDirSegment : String) (layout : List String)
    (extra : List (String × String)) (pg : Page)
    (hmem : pg ∈ pagination pathBase posts perPage pageDirSegment
      layout extra) :
    (pg.index = 1 → pg.path = pathBase) ∧
    (2 ≤ pg.index → pg.path =
      pathBase ++ pageDirSegment ++ "/" ++ toString pg.index ++ "/") ∧
    (posts ≠ [] →
      (pagination pathBase posts perPage pageDirSegment layout
          extra).head?.map Page.index = some 1 ∧
      (pagination pathBase posts perPage pageDirSegment layout
          extra).head?.map Page.path = some pathBase) := by
  rw [pagination] at hmem
  have hp := paginate_mem_path pathBase pageDirSegment layout extra
    ((posts.length + perPage - 1) / perPage) perPage 1 posts pg hmem
  refine ⟨?_, ?_, ?_⟩
  · intro h1
    rw [hp.1, h1, pagePath, if_pos (Nat.le_refl 1)]
  · intro h2
    rw [hp.1, pagePath, if_neg (by omega)]
  · intro hne
    cases posts with
    | nil => exact absurd rfl hne
    | cons a l =>
      rw [pagination, paginate]
      constructor
      · rfl
      · simp [pagePath]


/-- Witness for C7: the second page of a two-item collection paginated
one item per page. -/
theorem page_addressing_witness :
    demoSecondPage.path =
      "explorations/" ++ "page" ++ "/" ++
        toString demoSecondPage.index ++ "/" :=
  ((page_addressing [demoPost 1 2 none, demoPost 2 1 none] 1
    "explorations/" "page" [] [] demoSecondPage
    (by simp [demoSecondPage, pagination, paginate, pagePath])).2.1)
    (by decide)

/-- C8: both ordering passes are stable: two items with equal date (the
primary-sort key) and equal sticky value that appear in some order in the
output of the Selector appear in that same order in the final output. -/
theorem two_pass_stability (config : SiteConfig)
    (posts : List ContentItem) (a b : ContentItem)
    (hsub : [a, b].Sublist (explorationsPosts posts))
    (hdate : a.date = b.date) (hsticky : stickyVal a = stickyVal b) :
    [a, b].Sublist
      (((explorationsGenerator config (some posts)).map
        Page.items).flatten) := by
  rw [explorationsGenerator_flatten]
  exact stickySortPass_pair_sublist hsticky
    (querySort_pair_sublist _ hdate hsub)

/-- Witness for C8: two matching items with equal dates and equal sticky
values keep their order through the whole pipeline. -/
theorem two_pass_stability_witness :
    [demoPost 1 7 (some 2), demoPost 2 7 (some 2)].Sublist
      (((explorationsGenerator demoConfig
        (some [demoPost 1 7 (some 2), demoPost 2 7 (some 2)])).map
        Page.items).flatten) :=
  two_pass_stability demoConfig
    [demoPost 1 7 (some 2), demoPost 2 7 (some 2)]
    (demoPost 1 7 (some 2)) (demoPost 2 7 (some 2))
    (by decide) rfl rfl

/-- C9 (amended): the hidden flag has no influence on the pipeline: for
any two input collections that are identical except for the hidden flags
on their items, the produced page sequences are identical up to the
hidden flags carried inside the page items; in particular a hidden
matching item is selected, ordered and paginated exactly like a
non-hidden one. -/
theorem hidden_noninterference (config : SiteConfig)
    (ps1 ps2 : List ContentItem)
    (h : ps1.map eraseHidden = ps2.map eraseHidden) :
    (explorationsGenerator config (some ps1)).map pageEraseHidden =
      (explorationsGenerator config (some ps2)).map pageEraseHidden := by
  rw [← explorationsGenerator_map_eraseHidden,
    ← explorationsGenerator_map_eraseHidden, h]

/-- Witness for C9: a hidden and a non-hidden copy of the same matching
item produce the same page sequence up to hidden flags. -/
theorem hidden_noninterference_witness :
    (explorationsGenerator demoConfig (some [hiddenItem])).map
        pageEraseHidden =
      (explorationsGenerator demoConfig (some [shownItem])).map
        pageEraseHidden :=
  hidden_noninterference demoConfig [hiddenItem] [shownItem] (by decide)

/-- C9 counterexample: the produced page sequences are not literally
identical, because pages carry the items themselves and with them their
hidden flags: two one-item collections identical except for the hidden
flag produce unequal page sequences. -/
theorem hidden_flag_identity_cex :
    [hiddenItem].map eraseHidden = [shownItem].map eraseHidden ∧
    explorationsGenerator demoConfig (some [hiddenItem]) ≠
      explorationsGenerator demoConfig (some [shownItem]) := by
  constructor
  · decide
  · intro h
    have h2 := congrArg (fun pages => (pages.map Page.items).flatten) h
    simp only [explorationsGenerator_flatten] at h2
    rw [show explorationsPosts [hiddenItem] = [hiddenItem] from by decide,
      show explorationsPosts [shownItem] = [shownItem] from by decide]
      at h2
    simp [querySort, jsOrStr, stickySortPass, List.mergeSort, demoConfig,
      hiddenItem, shownItem] at h2

/-- C10: the Selector is total on malformed items: an item whose
categories field is absent or an empty list fails the filter predicate
and is excluded from the output of the Selector, for every input
collection. -/
theorem malformed_categories_excluded (all_posts : List ContentItem)
    (post : ContentItem)
    (h : post.categories = none ∨ post.categories = some []) :
    matchesExplorations post = false ∧
    post ∉ explorationsPosts all_posts := by
  have hm : matchesExplorations post = false := by
    rcases h with h | h <;> simp [matchesExplorations, h]
  refine ⟨hm, fun hmem => ?_⟩
  have hmatch := (List.mem_filter.mp hmem).2
  rw [hm] at hmatch
  exact Bool.false_ne_true hmatch

/-- Witness for C10: an item with an absent categories field is excluded
from a collection containing it. -/
theorem malformed_categories_excluded_witness :
    matchesExplorations demoNoCategories = false ∧
    demoNoCategories ∉ explorationsPosts [demoNoCategories] :=
  malformed_categories_excluded [demoNoCategories] demoNoCategories
    (Or.inl rfl)
